import Mathlib

/-!
Shallow embedding of forestry/trees.py (the Tree class) and proofs about it.

Modelling conventions:
* Python values that occur as keys, stored values or parent references are
  modelled by the inductive type PVal: the module-level EMPTY sentinel
  (a unique object), Python None, strings and integers.
* Python dicts are modelled as insertion-ordered association lists; dict
  lookup failure (KeyError) is modelled by the Err type.  The source raises
  KeyError everywhere; the Err constructors record the raise site following
  the two error kinds of the design (KeyNotFound for a dereference of a key
  expected to exist, DuplicateKey for the verify_key_out check).
* defaultdict(list) reads are modelled as lookup-with-default-[]; the
  auto-vivification side effect of a read is not observable through any
  operation modelled here and is dropped.
* Methods that can raise return Except Err; append, which mutates, returns
  the resulting state together with the outcome, so that the state at the
  point of a raise is explicit.
* The while-loops of ancestors and levelorder can diverge on adversarial
  states (a parent cycle, or a child list pointing back at itself), so both
  are given an explicit fuel parameter; exhausting the fuel is reported as a
  distinct outcome (none, or TOut.fuelOut) and never confused with a result.
-/

namespace Forestry

/-- Python values in play: the module-level EMPTY sentinel object, Python
None, strings, and integers.  EMPTY is distinguishable from every other
value by construction, like the identity test on the sentinel object. -/
inductive PVal where
  | EMPTY : PVal
  | none : PVal
  | str : String → PVal
  | int : Int → PVal
deriving DecidableEq

/-- Python truthiness of a PVal: object() is truthy, None is falsy, a
string is truthy iff non-empty, an integer is truthy iff nonzero. -/
def truthy : PVal → Bool
  | .EMPTY => true
  | .none => false
  | .str s => !s.isEmpty
  | .int n => n != 0

/-- Python expression x or y: x if x is truthy, else y. -/
def pyOr (x y : PVal) : PVal :=
  if truthy x then x else y

/-- Embeds the _Node named tuple of trees.py: the stored value and the key
of the parent.  The parent field defaults to the EMPTY sentinel, exactly as
in the source. -/
structure _Node where
  value : PVal
  parent : PVal := .EMPTY
deriving DecidableEq

/-- Error outcomes.  The source raises KeyError in every failure case; the
two constructors record which check raised: a dereference of a missing key
(dict lookup or verify_key_in) gives KeyNotFound, the verify_key_out check
in append gives DuplicateKey. -/
inductive Err where
  | KeyNotFound : PVal → Err
  | DuplicateKey : PVal → Err
deriving DecidableEq

/-- Lookup in an insertion-ordered association list, modelling Python dict
indexing. -/
def lookup? {β : Type} : List (PVal × β) → PVal → Option β
  | [], _ => Option.none
  | (k, v) :: rest, key => if key = k then Option.some v else lookup? rest key

/-- Embeds the Tree attributes: _children is the defaultdict(list) from
keys to ordered child-key lists, _nodes the dict from keys to node records,
root_key the root tag (Python None when never set). -/
structure Tree where
  _children : List (PVal × List PVal)
  _nodes : List (PVal × _Node)
  root_key : PVal
deriving DecidableEq

/-- Embeds self._children[key].append(c): if key is present, append c to
its list in place; otherwise the defaultdict vivifies an empty list, which
then receives c. -/
def childAppend (d : List (PVal × List PVal)) (key c : PVal) :
    List (PVal × List PVal) :=
  match d with
  | [] => [(key, [c])]
  | (k, l) :: rest =>
    if key = k then (k, l ++ [c]) :: rest else (k, l) :: childAppend rest key c

/-- Embeds a read of self._children[key]: the recorded child list, or []
when none was recorded (defaultdict default). -/
def getList (t : Tree) (key : PVal) : List PVal :=
  (lookup? t._children key).getD []

/-- Embeds Tree.__init__ (trees.py lines 69-79): _children starts empty;
_nodes is empty when value is the EMPTY default, else the single binding of
key to _Node(value) with the EMPTY parent; root_key is set to key (Python
None when not supplied). -/
def Tree.init (key : PVal := .none) (value : PVal := .EMPTY) : Tree :=
  { _children := [],
    _nodes := if value = .EMPTY then [] else [(key, { value := value })],
    root_key := key }

/-- Embeds Tree.__contains__: membership in _nodes. -/
def Tree.contains (t : Tree) (item : PVal) : Bool :=
  (lookup? t._nodes item).isSome

/-- Embeds Tree.__getitem__: self._nodes[item].value, KeyError when the key
is absent. -/
def Tree.getitem (t : Tree) (item : PVal) : Except Err PVal :=
  match lookup? t._nodes item with
  | Option.none => .error (.KeyNotFound item)
  | Option.some n => .ok n.value

/-- Embeds Tree.__len__: the number of nodes. -/
def Tree.len (t : Tree) : Nat :=
  t._nodes.length

/-- Embeds the Tree.root_value property: self._nodes.get(self.root_key,
EMPTY).  The source returns the node record itself when root_key is bound
(not its value field), and the EMPTY sentinel otherwise; Option.none models
the returned sentinel. -/
def Tree.root_value (t : Tree) : Option _Node :=
  lookup? t._nodes t.root_key

/-- Embeds Tree.is_empty: the identity test self.root_value is EMPTY, which
holds exactly when root_key has no node record. -/
def Tree.is_empty (t : Tree) : Bool :=
  t.root_value.isNone

/-- Embeds Tree.verify_key_in (trees.py lines 234-240): KeyError when the
key is absent. -/
def Tree.verify_key_in (t : Tree) (key : PVal) : Except Err Unit :=
  if t.contains key then .ok () else .error (.KeyNotFound key)

/-- Embeds Tree.verify_key_out (trees.py lines 242-249): KeyError when the
key is already present. -/
def Tree.verify_key_out (t : Tree) (key : PVal) : Except Err Unit :=
  if t.contains key then .error (.DuplicateKey key) else .ok ()

/-- Embeds Tree.is_root: verify_key_in, then comparison with root_key. -/
def Tree.is_root (t : Tree) (key : PVal) : Except Err Bool :=
  match t.verify_key_in key with
  | .error e => .error e
  | .ok _ => .ok (decide (key = t.root_key))

/-- Embeds Tree.append (trees.py lines 112-123).  The parent argument
defaults via the Python or-expression to root_key; verify_key_out raises
before any mutation, so on a duplicate key the state returned is the input
state; on success the node record stores the resolved parent, while the new
key is appended to the child list of self.root_key (line 123 uses
self.root_key, not the resolved parent). -/
def Tree.append (t : Tree) (key value : PVal) (parent : PVal := .none) :
    Tree × Except Err Unit :=
  let parent := pyOr parent t.root_key
  match t.verify_key_out key with
  | .error e => (t, .error e)
  | .ok _ =>
    ({ t with
        _nodes := t._nodes ++ [(key, { value := value, parent := parent })],
        _children := childAppend t._children t.root_key key },
      .ok ())

/-- Embeds the list comprehension in Tree.children: look up each child key
left to right, raising KeyError at the first missing one. -/
def valuesOf (t : Tree) : List PVal → Except Err (List PVal)
  | [] => .ok []
  | k :: rest =>
    match lookup? t._nodes k with
    | Option.none => .error (.KeyNotFound k)
    | Option.some n =>
      match valuesOf t rest with
      | .error e => .error e
      | .ok vs => .ok (n.value :: vs)

/-- Embeds Tree.children (trees.py lines 125-128): verify_key_in, then the
values of the recorded child keys of key, in order. -/
def Tree.children (t : Tree) (key : PVal) : Except Err (List PVal) :=
  match t.verify_key_in key with
  | .error e => .error e
  | .ok _ => valuesOf t (getList t key)

/-- Embeds Tree.extend (trees.py lines 130-139): append each pair in order
under the same parent; a failure stops the batch, keeping the state reached
so far. -/
def Tree.extend (t : Tree) (children : List (PVal × PVal))
    (parent : PVal := .none) : Tree × Except Err Unit :=
  match children with
  | [] => (t, .ok ())
  | (key, value) :: rest =>
    match t.append key value parent with
    | (t', .error e) => (t', .error e)
    | (t', .ok _) => t'.extend rest parent

/-- Embeds Tree.parent (trees.py lines 159-162): self._nodes[key].parent is
dereferenced and then self._nodes[parent_key].value is read; either dict
access raises KeyError when the key is absent.  There is no special case
for the root: its parent field is the EMPTY sentinel, which is then looked
up in _nodes like any key. -/
def Tree.parent (t : Tree) (key : PVal) : Except Err PVal :=
  match lookup? t._nodes key with
  | Option.none => .error (.KeyNotFound key)
  | Option.some node =>
    match lookup? t._nodes node.parent with
    | Option.none => .error (.KeyNotFound node.parent)
    | Option.some p => .ok p.value

/-- Embeds the while-loop of Tree.ancestors (trees.py lines 103-110).  At
the loop head is_root(current) runs verify_key_in (raising when current is
absent) and compares with root_key; otherwise current becomes its parent
and self[current] is read (raising when that key is absent), appended to
the right, or to the left when reverse is set.  The fuel bounds the number
of iterations; running out is reported as Option.none, the model of the
loop not terminating within the fuel. -/
def ancestorsLoop (t : Tree) (reverse : Bool) :
    Nat → PVal → List PVal → Option (Except Err (List PVal))
  | 0, _, _ => Option.none
  | fuel + 1, current, deq =>
    match lookup? t._nodes current with
    | Option.none => Option.some (.error (.KeyNotFound current))
    | Option.some node =>
      if current = t.root_key then Option.some (.ok deq)
      else
        match lookup? t._nodes node.parent with
        | Option.none => Option.some (.error (.KeyNotFound node.parent))
        | Option.some pn =>
          ancestorsLoop t reverse fuel node.parent
            (if reverse then pn.value :: deq else deq ++ [pn.value])

/-- Embeds Tree.ancestors (trees.py lines 95-110): verify_key_in on the
argument, then the climb to the root collecting ancestor values. -/
def Tree.ancestors (t : Tree) (key : PVal) (reverse : Bool) (fuel : Nat) :
    Option (Except Err (List PVal)) :=
  match t.verify_key_in key with
  | .error e => Option.some (.error e)
  | .ok _ => ancestorsLoop t reverse fuel key []

/-- Embeds Tree.path (trees.py lines 164-172): ancestors(key, reverse=True)
followed by the value at key.  The same fuel is passed to the ancestors
climb. -/
def Tree.path (t : Tree) (key : PVal) (fuel : Nat) :
    Option (Except Err (List PVal)) :=
  match t.ancestors key true fuel with
  | Option.none => Option.none
  | Option.some (.error e) => Option.some (.error e)
  | Option.some (.ok l) =>
    match lookup? t._nodes key with
    | Option.none => Option.some (.error (.KeyNotFound key))
    | Option.some n => Option.some (.ok (l ++ [n.value]))

/-- Embeds Tree.preorder (trees.py lines 174-185).  The generator defaults
start_key via the or-expression, and when the key is present yields its
value; the for-loop on line 184-185 calls self.preorder(start_key=child)
without iterating the returned generator (there is no yield from), so the
recursive calls contribute no values: the produced sequence is exactly the
start value, or empty when the key is absent. -/
def Tree.preorder (t : Tree) (start_key : PVal := .none) : List PVal :=
  let start_key := pyOr start_key t.root_key
  match lookup? t._nodes start_key with
  | Option.none => []
  | Option.some node => [node.value]

/-- Embeds Tree.postorder (trees.py lines 187-199).  As in preorder, the
recursive self.postorder(start_key=child) generators on line 198 are
created and discarded, so only the start value is yielded (after the no-op
loop). -/
def Tree.postorder (t : Tree) (start_key : PVal := .none) : List PVal :=
  let start_key := pyOr start_key t.root_key
  match lookup? t._nodes start_key with
  | Option.none => []
  | Option.some node => [node.value]

/-- Embeds Tree.inorder (trees.py lines 201-217).  The first-child and
rest-children recursive calls on lines 213 and 217 likewise discard the
generators they create, so the produced sequence is exactly the start
value, or empty when the key is absent. -/
def Tree.inorder (t : Tree) (start_key : PVal := .none) : List PVal :=
  let start_key := pyOr start_key t.root_key
  match lookup? t._nodes start_key with
  | Option.none => []
  | Option.some node => [node.value]

/-- Outcome of a generator run for the queue-based traversal: it finished,
it raised, or the fuel bound was reached before the loop finished. -/
inductive TOut where
  | done
  | raised : Err → TOut
  | fuelOut
deriving DecidableEq

/-- Embeds the while-loop of Tree.levelorder (trees.py lines 228-232):
while the deque is non-empty, pop the leftmost key, yield self[key]
(raising KeyError when absent), and extend the deque with the recorded
children of key.  Values yielded before a raise or before the fuel runs
out are kept. -/
def levelorderLoop (t : Tree) : Nat → List PVal → List PVal × TOut
  | _, [] => ([], .done)
  | 0, _ :: _ => ([], .fuelOut)
  | fuel + 1, key :: rest =>
    match lookup? t._nodes key with
    | Option.none => ([], .raised (.KeyNotFound key))
    | Option.some node =>
      (node.value :: (levelorderLoop t fuel (rest ++ getList t key)).1,
       (levelorderLoop t fuel (rest ++ getList t key)).2)

/-- Embeds Tree.levelorder (trees.py lines 219-232): start_key defaults via
the or-expression to root_key; when the resolved key is absent the
generator yields nothing, otherwise the queue loop runs seeded with the
resolved key. -/
def Tree.levelorder (t : Tree) (start_key : PVal) (fuel : Nat) :
    List PVal × TOut :=
  let start_key := pyOr start_key t.root_key
  if t.contains start_key then levelorderLoop t fuel [start_key]
  else ([], .done)

/-- Modelled from the spec (section 4.4 Level-order), for comparison with
the source embedding: visit nodes breadth-first with a FIFO queue; for each
dequeued key, yield its value then enqueue all its recorded children in
order.  Written with an explicit output accumulator; a missing node record
for a dequeued key is a KeyNotFound raise, and the same fuel bound applies
to the loop. -/
def specLevelorderLoop (t : Tree) :
    Nat → List PVal → List PVal → List PVal × TOut
  | _, [], acc => (acc.reverse, .done)
  | 0, _ :: _, acc => (acc.reverse, .fuelOut)
  | fuel + 1, key :: rest, acc =>
    match lookup? t._nodes key with
    | Option.none => (acc.reverse, .raised (.KeyNotFound key))
    | Option.some node =>
      specLevelorderLoop t fuel (rest ++ getList t key) (node.value :: acc)

/-- Modelled from the spec: the breadth-first traversal from a given start
key, the queue seeded with that key. -/
def specLevelorder (t : Tree) (start_key : PVal) (fuel : Nat) :
    List PVal × TOut :=
  specLevelorderLoop t fuel [start_key] []

/-- The scenario tree of the spec (section 8, scenario 3): root tag a with
value 100, then tags b and c with values 101 and 201 appended under the
default parent. -/
def scenario3 : Tree :=
  (((Tree.init (.str "a") (.int 100)).append (.str "b") (.int 101)
      .none).1.append (.str "c") (.int 201) .none).1

/-- A tree exercising an append under a non-root parent: root tag a with
value 100, tag b with value 101 under the root, then extend with the single
pair tag d, value 401 under parent b. -/
def deepTree : Tree :=
  ((((Tree.init (.str "a") (.int 100)).append (.str "b") (.int 101)
      .none).1).extend [(.str "d", .int 401)] (.str "b")).1

/-- A tree holding a falsy but existing key: root tag a with value 100,
then the empty-string tag with value 7 appended under the default
parent. -/
def falsyKeyTree : Tree :=
  ((Tree.init (.str "a") (.int 100)).append (.str "") (.int 7) .none).1

/-- Key-value pairs with string keys, as passed to extend. -/
def strPairs (pairs : List (String × PVal)) : List (PVal × PVal) :=
  pairs.map (fun p => (PVal.str p.1, p.2))

/-- The node records produced by appending string-keyed pairs to a rootless
tree: each stored with parent Python None. -/
def strNodes (pairs : List (String × PVal)) : List (PVal × _Node) :=
  pairs.map (fun p => (PVal.str p.1, { value := p.2, parent := PVal.none }))

theorem lookup?_append_none {β : Type} (l l' : List (PVal × β)) (k : PVal)
    (h : lookup? l k = Option.none) :
    lookup? (l ++ l') k = lookup? l' k := by
  induction l with
  | nil => simp
  | cons hd tl ih =>
    obtain ⟨k', v⟩ := hd
    by_cases hk : k = k'
    · simp [lookup?, hk] at h
    · simp only [lookup?, if_neg hk] at h
      simpa [lookup?, hk] using ih h

theorem lookup?_strNodes_mem (pairs : List (String × PVal)) (s : String)
    (h : s ∈ pairs.map Prod.fst) :
    (lookup? (strNodes pairs) (PVal.str s)).isSome = true := by
  induction pairs with
  | nil => simp at h
  | cons hd tl ih =>
    by_cases hs : s = hd.1
    · simp [strNodes, lookup?, hs]
    · have hmem : s ∈ tl.map Prod.fst := by
        simpa [hs] using h
      simpa [strNodes, lookup?, hs] using ih hmem

theorem lookup?_strNodes_none (pairs : List (String × PVal)) :
    lookup? (strNodes pairs) PVal.none = Option.none := by
  induction pairs with
  | nil => simp [strNodes, lookup?]
  | cons hd tl ih => simpa [strNodes, lookup?] using ih

/-- CLAIM C1.  The claim says that a key appended (or extended) under an
existing parent p becomes a direct child of p, with children(p) listing the
appended values, and that the recorded child lists always agree with the
stored parent fields.  The code records every appended key under the child
list of root_key instead of the resolved parent (trees.py line 123), so for
the tree with root a holding 100, child b holding 101 under the root, and d
holding 401 extended under parent b, the node record of d stores parent b,
yet children(b) is empty and both appended keys sit in the child list of
the root a.  This theorem evaluates the embedded code at that failing
input. -/
theorem C1_children_recorded_under_root :
    lookup? deepTree._nodes (PVal.str "d")
      = Option.some { value := PVal.int 401, parent := PVal.str "b" } ∧
    deepTree.children (PVal.str "b") = .ok [] ∧
    deepTree.children (PVal.str "a") = .ok [PVal.int 101, PVal.int 401] :=
  ⟨rfl, rfl, rfl⟩

/-- CLAIM C2.  The claim says preorder yields the start value followed by
the preorder of each child, so the scenario tree with root a holding 100
and children b holding 101 and c holding 201 should give 100, 101, 201.
The generator in the code calls self.preorder on each child without
iterating the result (trees.py line 185, no yield from), so the recursive
values are discarded: on the scenario tree the code yields only 100.  This
theorem evaluates the embedded code at that failing input, together with
the recorded child list showing the children are present. -/
theorem C2_preorder_drops_children :
    scenario3.preorder .none = [PVal.int 100] ∧
    getList scenario3 (PVal.str "a") = [PVal.str "b", PVal.str "c"] :=
  ⟨rfl, rfl⟩

/-- CLAIM C4.  The claim says parent(k) returns the parent value for a
non-root key, the EMPTY sentinel for the root key, and a KeyNotFound
failure for an absent key.  The code has no root special case: it looks the
root's stored parent, the EMPTY sentinel, up in the node dict and raises
KeyError (trees.py line 162).  This theorem evaluates the embedded code:
the non-root and absent-key parts behave as claimed on the scenario tree,
but parent at the root of a single-node tree fails instead of returning
EMPTY. -/
theorem C4_parent_at_root_raises :
    (Tree.init (PVal.str "a") (PVal.int 100)).parent (PVal.str "a")
      = .error (.KeyNotFound .EMPTY) ∧
    scenario3.parent (PVal.str "b") = .ok (PVal.int 100) ∧
    scenario3.parent (PVal.str "zz") = .error (.KeyNotFound (PVal.str "zz")) :=
  ⟨rfl, rfl, rfl⟩

/-- CLAIM C5.  The claim says inorder yields the inorder of the first
child, then the node, then the inorder of the remaining children, reducing
to just the node for a leaf.  The generator discards the recursive
self.inorder calls (trees.py lines 213 and 217), so on the scenario tree it
yields only the root value 100 instead of 101, 100, 201; the leaf part of
the claim does hold, as the second conjunct shows on a single-node
tree. -/
theorem C5_inorder_drops_children :
    scenario3.inorder .none = [PVal.int 100] ∧
    (Tree.init (PVal.str "z") (PVal.int 9)).inorder .none = [PVal.int 9] :=
  ⟨rfl, rfl⟩

/-- CLAIM C3, counterexample.  The claim says append with an absent parent
key fails with KeyNotFound on a non-empty tree.  On the single-node tree
with root a holding 100, which is non-empty and does not contain the key
zz, appending x holding 7 under parent zz succeeds. -/
theorem C3_counterexample :
    (Tree.init (PVal.str "a") (PVal.int 100)).is_empty = false ∧
    (Tree.init (PVal.str "a") (PVal.int 100)).contains (PVal.str "zz") = false ∧
    ((Tree.init (PVal.str "a") (PVal.int 100)).append (PVal.str "x")
        (PVal.int 7) (PVal.str "zz")).2 = .ok () :=
  ⟨rfl, rfl, rfl⟩

/-- CLAIM C3 as amended.  The code never validates the parent argument of
append: for any tree and any truthy parent key, present in the tree or
not, appending a key that is not yet present succeeds, storing the node
with the given parent key (and recording the key under the root's child
list); no KeyNotFound is raised for an absent parent. -/
theorem C3_append_ignores_parent (t : Tree) (key value p : PVal)
    (hp : truthy p = true) (hkey : t.contains key = false) :
    t.append key value p
      = ({ t with
            _nodes := t._nodes ++ [(key, { value := value, parent := p })],
            _children := childAppend t._children t.root_key key },
         .ok ()) := by
  simp [Tree.append, Tree.verify_key_out, hkey, pyOr, hp]

theorem C3_append_ignores_parent_witness :
    truthy (PVal.str "zz") = true ∧
    (Tree.init (PVal.str "a") (PVal.int 100)).contains (PVal.str "x") = false ∧
    (Tree.init (PVal.str "a") (PVal.int 100)).append (PVal.str "x")
        (PVal.int 7) (PVal.str "zz")
      = ({ Tree.init (PVal.str "a") (PVal.int 100) with
            _nodes := (Tree.init (PVal.str "a") (PVal.int 100))._nodes
              ++ [(PVal.str "x", { value := PVal.int 7, parent := PVal.str "zz" })],
            _children := childAppend
              (Tree.init (PVal.str "a") (PVal.int 100))._children
              (Tree.init (PVal.str "a") (PVal.int 100)).root_key
              (PVal.str "x") },
         .ok ()) :=
  ⟨rfl, rfl, C3_append_ignores_parent _ _ _ _ rfl rfl⟩

/-- CLAIM C8.  For each of the four traversals, when the resolved start key
(the supplied key, or root_key when the supplied key is falsy) is absent
from the node dict, the traversal produces the empty sequence and no
error. -/
theorem C8_absent_start_gives_empty (t : Tree) (sk : PVal) (fuel : Nat)
    (h : lookup? t._nodes (pyOr sk t.root_key) = Option.none) :
    t.preorder sk = [] ∧ t.postorder sk = [] ∧ t.inorder sk = [] ∧
    t.levelorder sk fuel = ([], .done) := by
  refine ⟨?_, ?_, ?_, ?_⟩ <;>
    simp [Tree.preorder, Tree.postorder, Tree.inorder, Tree.levelorder,
      Tree.contains, h]

theorem C8_absent_start_gives_empty_witness :
    lookup? (Tree.init .none .EMPTY)._nodes
        (pyOr .none (Tree.init .none .EMPTY).root_key) = Option.none ∧
    (Tree.init .none .EMPTY).preorder .none = [] ∧
    (Tree.init .none .EMPTY).postorder .none = [] ∧
    (Tree.init .none .EMPTY).inorder .none = [] ∧
    (Tree.init .none .EMPTY).levelorder .none 3 = ([], .done) := by
  have h := C8_absent_start_gives_empty (Tree.init .none .EMPTY) .none 3 rfl
  exact ⟨rfl, h.1, h.2.1, h.2.2.1, h.2.2.2⟩

/-- CLAIM C10.  Appending a key that is already present fails with the
duplicate-key error, and the returned state is exactly the input tree: the
verify_key_out check runs before any mutation, so the node dict, the child
lists and the root key are unchanged. -/
theorem C10_duplicate_append_unchanged (t : Tree) (key value parent : PVal)
    (h : t.contains key = true) :
    t.append key value parent = (t, .error (.DuplicateKey key)) := by
  simp [Tree.append, Tree.verify_key_out, h]

theorem C10_duplicate_append_unchanged_witness :
    scenario3.contains (PVal.str "a") = true ∧
    scenario3.append (PVal.str "a") (PVal.int 7) .none
      = (scenario3, .error (.DuplicateKey (PVal.str "a"))) :=
  ⟨rfl, C10_duplicate_append_unchanged scenario3 _ _ _ rfl⟩

/-- CLAIM C6.  For every key present in the tree (with stored value v),
path at that key equals ancestors at that key with reverse set, with v
appended to the resulting sequence; the identity also propagates a raise or
a fuel exhaustion of the ancestors climb unchanged, since path runs the
same climb. -/
theorem C6_path_is_ancestors_plus_value (t : Tree) (key : PVal) (fuel : Nat)
    (v : PVal) (h : t.getitem key = .ok v) :
    t.path key fuel
      = (t.ancestors key true fuel).map (fun r => r.map (fun l => l ++ [v])) := by
  unfold Tree.getitem at h
  cases hl : lookup? t._nodes key with
  | none => rw [hl] at h; cases h
  | some nd =>
    rw [hl] at h
    have hv : nd.value = v := by
      cases h
      rfl
    unfold Tree.path
    cases ha : t.ancestors key true fuel with
    | none => simp
    | some r =>
      cases r with
      | error e => simp [Except.map]
      | ok l => simp [hl, Except.map, hv]

theorem C6_path_is_ancestors_plus_value_witness :
    scenario3.getitem (PVal.str "b") = .ok (PVal.int 101) ∧
    scenario3.path (PVal.str "b") 5
      = (scenario3.ancestors (PVal.str "b") true 5).map
          (fun r => r.map (fun l => l ++ [PVal.int 101])) :=
  ⟨rfl, C6_path_is_ancestors_plus_value scenario3 _ 5 _ rfl⟩

theorem specLevelorderLoop_eq (t : Tree) :
    ∀ (fuel : Nat) (deq acc : List PVal),
      specLevelorderLoop t fuel deq acc
        = (acc.reverse ++ (levelorderLoop t fuel deq).1,
           (levelorderLoop t fuel deq).2) := by
  intro fuel
  induction fuel with
  | zero =>
    intro deq acc
    cases deq <;> simp [specLevelorderLoop, levelorderLoop]
  | succ n ih =>
    intro deq acc
    cases deq with
    | nil => simp [specLevelorderLoop, levelorderLoop]
    | cons key rest =>
      cases hl : lookup? t._nodes key with
      | none => simp [specLevelorderLoop, levelorderLoop, hl]
      | some node => simp [specLevelorderLoop, levelorderLoop, hl, ih]

/-- CLAIM C7, counterexample.  The claim says that for every existing
start key, levelorder processes a FIFO queue seeded with that key.  The
code first resolves the start key with the Python or-expression (trees.py
line 226), so a falsy supplied key is replaced by root_key even when the
supplied key exists: on the tree with root a holding 100 and the existing
empty-string key holding 7, levelorder started at the empty-string key
yields 100 then 7 (the traversal from the root), not the sequence 7 that a
queue seeded with the supplied key produces. -/
theorem C7_counterexample_falsy_start :
    falsyKeyTree.contains (PVal.str "") = true ∧
    falsyKeyTree.levelorder (PVal.str "") 5
      = ([PVal.int 100, PVal.int 7], .done) ∧
    specLevelorder falsyKeyTree (PVal.str "") 5 = ([PVal.int 7], .done) :=
  ⟨rfl, rfl, rfl⟩

/-- CLAIM C7 as amended.  levelorder first resolves its start key with the
Python or-expression, replacing a falsy supplied key (None or the empty
string) by root_key; whenever the resolved key exists in the tree, the
traversal is exactly the breadth-first run written from the spec sentence,
with the FIFO queue seeded with the resolved key: each dequeued key yields
its value and enqueues its recorded children in order, until the queue is
empty. -/
theorem C7_levelorder_bfs_from_resolved_start (t : Tree) (sk : PVal)
    (fuel : Nat) (h : t.contains (pyOr sk t.root_key) = true) :
    t.levelorder sk fuel = specLevelorder t (pyOr sk t.root_key) fuel := by
  have hloop := specLevelorderLoop_eq t fuel [pyOr sk t.root_key] []
  simp [Tree.levelorder, specLevelorder, h, hloop]

theorem C7_levelorder_bfs_from_resolved_start_witness :
    falsyKeyTree.contains (pyOr (PVal.str "") falsyKeyTree.root_key) = true ∧
    falsyKeyTree.levelorder (PVal.str "") 5
      = specLevelorder falsyKeyTree (pyOr (PVal.str "") falsyKeyTree.root_key)
          5 :=
  ⟨rfl, C7_levelorder_bfs_from_resolved_start falsyKeyTree _ 5 rfl⟩

theorem extend_fresh_rootless (pairs : List (String × PVal)) :
    ∀ t : Tree, t.root_key = PVal.none →
      (∀ s, s ∈ pairs.map Prod.fst →
        lookup? t._nodes (PVal.str s) = Option.none) →
      (pairs.map Prod.fst).Nodup →
      (t.extend (strPairs pairs) .none).2 = .ok () ∧
      (t.extend (strPairs pairs) .none).1.root_key = PVal.none ∧
      (t.extend (strPairs pairs) .none).1._nodes
        = t._nodes ++ strNodes pairs := by
  induction pairs with
  | nil =>
    intro t hroot hfresh hnd
    simp [Tree.extend, strPairs, strNodes, hroot]
  | cons hd tl ih =>
    intro t hroot hfresh hnd
    obtain ⟨s, v⟩ := hd
    have hs : lookup? t._nodes (PVal.str s) = Option.none :=
      hfresh s (by simp)
    have hcon : t.contains (PVal.str s) = false := by
      simp [Tree.contains, hs]
    have happ : t.append (PVal.str s) v .none
        = ({ t with
              _nodes := t._nodes
                ++ [(PVal.str s, { value := v, parent := PVal.none })],
              _children := childAppend t._children t.root_key (PVal.str s) },
           .ok ()) := by
      simp [Tree.append, Tree.verify_key_out, hcon, pyOr, truthy, hroot]
    simp only [List.map_cons] at hnd
    have hnotmem : s ∉ tl.map Prod.fst := (List.nodup_cons.mp hnd).1
    have hnd' : (tl.map Prod.fst).Nodup := (List.nodup_cons.mp hnd).2
    have hfresh' : ∀ s', s' ∈ tl.map Prod.fst →
        lookup? (t._nodes
            ++ [(PVal.str s, { value := v, parent := PVal.none })])
          (PVal.str s') = Option.none := by
      intro s' hs'
      have hne : s' ≠ s := fun he => hnotmem (he ▸ hs')
      rw [lookup?_append_none _ _ _ (hfresh s' (by simp [hs']))]
      simp [lookup?, hne]
    have hres := ih
      ({ t with
          _nodes := t._nodes
            ++ [(PVal.str s, { value := v, parent := PVal.none })],
          _children := childAppend t._children t.root_key (PVal.str s) })
      hroot hfresh' hnd'
    refine ⟨?_, ?_, ?_⟩
    · simpa [Tree.extend, strPairs, happ] using hres.1
    · simpa [Tree.extend, strPairs, happ] using hres.2.1
    · have h3 := hres.2.2
      simp only [Tree.extend, strPairs, strNodes, List.map_cons, happ] at h3 ⊢
      rw [h3]
      simp [strNodes]

/-- CLAIM C9.  Starting from a tree constructed empty (no root key or
value), any sequence of appends of distinct string keys under the default
parent succeeds with no error, grows the node dict (so len counts the
appended pairs and contains holds for each key), yet never establishes a
root: root_key stays Python None, is_empty remains true, and each of the
four traversals from the default start still yields the empty sequence. -/
theorem C9_rootless_appends (pairs : List (String × PVal)) (t' : Tree)
    (r : Except Err Unit)
    (hnd : (pairs.map Prod.fst).Nodup)
    (heq : (Tree.init .none .EMPTY).extend (strPairs pairs) .none = (t', r)) :
    r = .ok () ∧
    t'.root_key = PVal.none ∧
    t'.len = pairs.length ∧
    (∀ s, s ∈ pairs.map Prod.fst → t'.contains (PVal.str s) = true) ∧
    t'.is_empty = true ∧
    t'.preorder .none = [] ∧
    t'.postorder .none = [] ∧
    t'.inorder .none = [] ∧
    (∀ fuel, t'.levelorder .none fuel = ([], .done)) := by
  obtain ⟨h1, h2, h3⟩ := extend_fresh_rootless pairs (Tree.init .none .EMPTY)
    rfl (by intro s hs; rfl) hnd
  rw [heq] at h1 h2 h3
  simp only at h1 h2 h3
  have hnodes : t'._nodes = strNodes pairs := by
    simpa [Tree.init] using h3
  refine ⟨h1, h2, ?_, ?_, ?_, ?_, ?_, ?_, ?_⟩
  · simp [Tree.len, hnodes, strNodes]
  · intro s hs
    simp [Tree.contains, hnodes, lookup?_strNodes_mem pairs s hs]
  · simp [Tree.is_empty, Tree.root_value, h2, hnodes, lookup?_strNodes_none]
  · simp [Tree.preorder, pyOr, truthy, h2, hnodes, lookup?_strNodes_none]
  · simp [Tree.postorder, pyOr, truthy, h2, hnodes, lookup?_strNodes_none]
  · simp [Tree.inorder, pyOr, truthy, h2, hnodes, lookup?_strNodes_none]
  · intro fuel
    simp [Tree.levelorder, Tree.contains, pyOr, truthy, h2, hnodes,
      lookup?_strNodes_none]

theorem C9_rootless_appends_witness :
    ((["x", "y"] : List String).Nodup) ∧
    ((Tree.init .none .EMPTY).extend
        (strPairs [("x", PVal.int 1), ("y", PVal.int 2)]) .none).2 = .ok () ∧
    (((Tree.init .none .EMPTY).extend
        (strPairs [("x", PVal.int 1), ("y", PVal.int 2)]) .none).1).is_empty
      = true ∧
    (((Tree.init .none .EMPTY).extend
        (strPairs [("x", PVal.int 1), ("y", PVal.int 2)]) .none).1).contains
        (PVal.str "x") = true ∧
    (((Tree.init .none .EMPTY).extend
        (strPairs [("x", PVal.int 1), ("y", PVal.int 2)]) .none).1).levelorder
        .none 3 = ([], .done) := by
  obtain ⟨h1, h2, h3, h4, h5, h6, h7, h8, h9⟩ :=
    C9_rootless_appends [("x", PVal.int 1), ("y", PVal.int 2)] _ _
      (by decide) rfl
  exact ⟨by decide, h1, h5, h4 "x" (by decide), h9 3⟩

end Forestry
